import Mathlib

/-!
Verification of the CAPTCHA post-processing pipeline of `main.py`
(`convert_coordinates` and the post-detector part of `process_image`),
shallowly embedded in Lean 4.

Modelling conventions:
* Python floats are modelled as exact rationals (`ℚ`); Python `round` is
  round-half-to-even (`roundHalfEven`), Python `int()` truncates toward
  zero (`ratTrunc`).
* JSON records with optional keys are structures of `Option` fields;
  `d.get(k, v)` is `Option.getD`.
* Python's `ZeroDivisionError` and the surrounding `try/except` are
  modelled with `Option`: a `none` anywhere in the pipeline makes
  `process_image` return the error envelope, mirroring the `except`
  branch of `process_image`.
* Python's `sorted` (a stable sort) is modelled by `List.mergeSort`,
  which is also stable; the keyword argument `reverse=True` together
  with `key=lambda x: x.get("confidence", 0)` becomes the boolean
  relation `confLe`.
* The Python field name `class` is rendered `cls` (Lean keyword clash).
* The in-place defaulting `prediction["class"] = "unknown"` (done in the
  grouping loop of `process_image` before either normalization loop runs)
  means every later `prediction.get("class", "")` sees `"unknown"` for an
  originally missing label; this is captured by `clsEff`.
-/

namespace Captcha

/-- Fixed UI layout constants from `main.py` (lines 79-106). -/
def FULL_BROWSER_WIDTH : ℤ := 502

/-- Browser canvas height constant from `main.py`. -/
def FULL_BROWSER_HEIGHT : ℤ := 606

/-- CAPTCHA image width constant from `main.py`. -/
def CAPTCHA_IMAGE_WIDTH : ℤ := 288

/-- CAPTCHA image height constant from `main.py`. -/
def CAPTCHA_IMAGE_HEIGHT : ℤ := 179

/-- Computed layout constant `CAPTCHA_IMAGE_X = (502-312)//2 + (312-288)//2`. -/
def CAPTCHA_IMAGE_X : ℤ := (FULL_BROWSER_WIDTH - 312) / 2 + (312 - 288) / 2

/-- Computed layout constant `CAPTCHA_IMAGE_Y = 150 + 42 + 5`. -/
def CAPTCHA_IMAGE_Y : ℤ := 150 + 42 + 5

/-- Python `round` on an exact rational: round half to even. -/
def roundHalfEven (q : ℚ) : ℤ :=
  if q - (⌊q⌋ : ℚ) < 1/2 then ⌊q⌋
  else if 1/2 < q - (⌊q⌋ : ℚ) then ⌊q⌋ + 1
  else if ⌊q⌋ % 2 = 0 then ⌊q⌋ else ⌊q⌋ + 1

/-- Python `int()` on an exact rational: truncation toward zero
(`Int.tdiv` is T-division). -/
def ratTrunc (q : ℚ) : ℤ := q.num.tdiv (q.den : ℤ)

/-- The pure arithmetic of `convert_coordinates` (`main.py` lines 117-133),
meaningful when both image dimensions are nonzero. -/
def convertOk (image_coord image_size captcha_offset : ℤ × ℤ) : ℤ × ℤ :=
  let x_ratio : ℚ := (CAPTCHA_IMAGE_WIDTH : ℚ) / (image_size.1 : ℚ)
  let y_ratio : ℚ := (CAPTCHA_IMAGE_HEIGHT : ℚ) / (image_size.2 : ℚ)
  let captcha_x : ℤ := roundHalfEven ((image_coord.1 : ℚ) * x_ratio)
  let captcha_y : ℤ := roundHalfEven ((image_coord.2 : ℚ) * y_ratio)
  let browser_x : ℤ := captcha_offset.1 + captcha_x
  let browser_y : ℤ := captcha_offset.2 + captcha_y
  (min (max 0 browser_x) FULL_BROWSER_WIDTH,
   min (max 0 browser_y) FULL_BROWSER_HEIGHT)

/-- `convert_coordinates` (`main.py` lines 108-133).  The ratio
computations `288 / w` and `179 / h` raise `ZeroDivisionError` when the
corresponding dimension is zero, modelled by `none`. -/
def convert_coordinates (image_coord image_size captcha_offset : ℤ × ℤ) :
    Option (ℤ × ℤ) :=
  if image_size.1 = 0 ∨ image_size.2 = 0 then none
  else some (convertOk image_coord image_size captcha_offset)

/-- A raw detection from the external detector: a JSON record whose
fields may all be absent (`main.py` accesses them with `.get`). -/
structure RawDetection where
  x : Option ℚ
  y : Option ℚ
  width : Option ℚ
  height : Option ℚ
  confidence : Option ℚ
  cls : Option String
  class_id : Option ℤ
  detection_id : Option String

/-- The detector's reported image metadata; either key may be absent. -/
structure ImageMeta where
  width : Option ℚ
  height : Option ℚ

/-- The external detector response consumed by `process_image`. -/
structure DetectorResponse where
  image : Option ImageMeta
  predictions : Option (List RawDetection)
  inference_id : Option String
  time : Option ℚ

/-- Sort key of `process_image` line 222: `x.get("confidence", 0)`. -/
def conf (p : RawDetection) : ℚ := p.confidence.getD 0

/-- Effective class label: the grouping loop (lines 230-233) sets a
missing `class` to `"unknown"` in place before any record is read again. -/
def clsEff (p : RawDetection) : String := p.cls.getD "unknown"

/-- Boolean comparison fed to the stable sort: descending confidence
(`sorted(..., key=..., reverse=True)`, lines 220-224). -/
def confLe (a b : RawDetection) : Bool := decide (conf b ≤ conf a)

/-- Stable confidence-descending sort (`sorted_predictions`). -/
def sortByConfDesc (l : List RawDetection) : List RawDetection :=
  List.mergeSort l confLe

/-- Normalized detection record (`standardized_pred` / `integer_pred`,
`main.py` lines 274-285 and 319-330). -/
structure NormalizedDetection where
  browser_x : ℤ
  browser_y : ℤ
  cls : String
  class_id : ℤ
  confidence : ℚ
  detection_id : String
  height : ℤ
  width : ℤ
  x : ℤ
  y : ℤ

/-- Pure normalization of one raw detection, assuming the coordinate
conversion succeeds. -/
def standardizePure (p : RawDetection) (image_size off : ℤ × ℤ) :
    NormalizedDetection :=
  let bc := convertOk (ratTrunc (p.x.getD 0), ratTrunc (p.y.getD 0)) image_size off
  { browser_x := bc.1
    browser_y := bc.2
    cls := p.cls.getD "unknown"
    class_id := p.class_id.getD 0
    confidence := p.confidence.getD 0
    detection_id := p.detection_id.getD ""
    height := ratTrunc (p.height.getD 0)
    width := ratTrunc (p.width.getD 0)
    x := ratTrunc (p.x.getD 0)
    y := ratTrunc (p.y.getD 0) }

/-- Normalization of one raw detection (`main.py` lines 252-285 and
297-330): truncate `x`/`y`, convert through `convert_coordinates`, and
fill every field with its typed default. -/
def standardize (p : RawDetection) (image_size off : ℤ × ℤ) :
    Option NormalizedDetection :=
  (convert_coordinates (ratTrunc (p.x.getD 0), ratTrunc (p.y.getD 0))
      image_size off).map fun bc =>
    { browser_x := bc.1
      browser_y := bc.2
      cls := p.cls.getD "unknown"
      class_id := p.class_id.getD 0
      confidence := p.confidence.getD 0
      detection_id := p.detection_id.getD ""
      height := ratTrunc (p.height.getD 0)
      width := ratTrunc (p.width.getD 0)
      x := ratTrunc (p.x.getD 0)
      y := ratTrunc (p.y.getD 0) }

/-- First-occurrence order of the distinct elements of a list: the key
iteration order of the insertion-ordered `defaultdict` `class_groups`. -/
def keysInOrder : List String → List String
  | [] => []
  | c :: rest => c :: keysInOrder (rest.filter fun d => decide (d ≠ c))
termination_by l => l.length
decreasing_by
  simpa using Nat.lt_succ_of_le (List.length_filter_le _ rest)

/-- Effective predictions list (`results.get("predictions", [])`, with
the line 216-217 substitution of `[]` for a missing key). -/
def preds (r : DetectorResponse) : List RawDetection :=
  r.predictions.getD []

/-- `sorted_predictions` of `process_image`. -/
def sortedPreds (r : DetectorResponse) : List RawDetection :=
  sortByConfDesc (preds r)

/-- Reported image width as used by the per-detection conversion
(`int(results.get("image", {}).get("width", 0))` before `int`): the
line 214-215 substitution makes a missing `image` key behave as width 0. -/
def imgW (r : DetectorResponse) : ℚ :=
  match r.image with
  | none => 0
  | some m => m.width.getD 0

/-- Reported image height, defaulted like `imgW`. -/
def imgH (r : DetectorResponse) : ℚ :=
  match r.image with
  | none => 0
  | some m => m.height.getD 0

/-- Width divisor of the `coordinate_transform` block (line 337):
`results.get("image", {}).get("width", 1)`.  After the line 214-215
substitution a missing `image` key yields 0, while a present `image`
object missing only the `width` key yields the fallback 1. -/
def ctW (r : DetectorResponse) : ℚ :=
  match r.image with
  | none => 0
  | some m => m.width.getD 1

/-- Height divisor of the `coordinate_transform` block (line 338). -/
def ctH (r : DetectorResponse) : ℚ :=
  match r.image with
  | none => 0
  | some m => m.height.getD 1

/-- The `(width, height)` pair passed to `convert_coordinates`
(lines 258-262 and 303-307). -/
def imageSize (r : DetectorResponse) : ℤ × ℤ :=
  (ratTrunc (imgW r), ratTrunc (imgH r))

/-- Python `round(q, 4)` on an exact rational. -/
def round4 (q : ℚ) : ℚ := (roundHalfEven (q * 10000) : ℚ) / 10000

/-- Keys of `class_groups` in insertion order. -/
def classKeys (r : DetectorResponse) : List String :=
  keysInOrder ((sortedPreds r).map clsEff)

/-- The group of a class label: all sorted detections carrying it. -/
def classGroup (r : DetectorResponse) (c : String) : List RawDetection :=
  (sortedPreds r).filter fun p => decide (clsEff p = c)

/-- Class labels with more than one member (`len(predictions) > 1`,
line 241), in `class_groups` iteration order. -/
def dupKeys (r : DetectorResponse) : List String :=
  (classKeys r).filter fun c => decide (1 < (classGroup r c).length)

/-- One entry of `duplicate_characters` (`main.py` lines 289-292):
`count` is the group size, `details` the normalized group re-sorted by
descending confidence. -/
structure DuplicateEntry where
  count : ℕ
  details : List NormalizedDetection

/-- Normalize every detection of a list in order; `none` as soon as one
conversion raises (the Python loop stops at the first exception). -/
def stdList (l : List RawDetection) (image_size off : ℤ × ℤ) :
    Option (List NormalizedDetection) :=
  match l with
  | [] => some []
  | p :: rest =>
    match standardize p image_size off, stdList rest image_size off with
    | some n, some ns => some (n :: ns)
    | _, _ => none

/-- The `duplicate_classes[class_name]` entry built for one class
(lines 242-292). -/
def dupEntryFor (r : DetectorResponse) (off : ℤ × ℤ) (c : String) :
    Option (String × DuplicateEntry) :=
  (stdList (sortByConfDesc (classGroup r c)) (imageSize r) off).map fun det =>
    (c, ⟨(classGroup r c).length, det⟩)

/-- The duplicate-class loop (lines 240-292), iterating over the listed
class labels in order. -/
def collectDups (r : DetectorResponse) (off : ℤ × ℤ) :
    List String → Option (List (String × DuplicateEntry))
  | [] => some []
  | c :: cs =>
    match dupEntryFor r off c, collectDups r off cs with
    | some e, some es => some (e :: es)
    | _, _ => none

/-- Successful `enhanced_output` envelope (lines 334-391), restricted to
its dynamic fields (the `ui_layout` block and the four `captcha_*` /
`full_browser_*` echoes are fixed constants). -/
structure SuccessEnvelope where
  all_predictions : List NormalizedDetection
  x_ratio : ℚ
  y_ratio : ℚ
  offset_x : ℤ
  offset_y : ℤ
  duplicate_characters : List (String × DuplicateEntry)
  duplicate_count : ℕ
  duplicates : List NormalizedDetection
  image_width : ℤ
  image_height : ℤ
  inference_id : String
  time : ℚ
  total_detected : ℕ
  unique_characters : ℕ

/-- The structured error envelope (lines 400-406). -/
structure ErrorEnvelope where
  error : String
  details : String
  duplicate_characters : List (String × DuplicateEntry)
  duplicates : List NormalizedDetection
  all_predictions : List NormalizedDetection

/-- The error envelope value returned by the `except` branch. -/
def errorEnvelope : ErrorEnvelope :=
  { error := "division by zero"
    details := "Lỗi trong quá trình xử lý ảnh"
    duplicate_characters := []
    duplicates := []
    all_predictions := [] }

/-- Result of `process_image`: a success envelope or the error envelope. -/
inductive ProcessResult where
  | ok : SuccessEnvelope → ProcessResult
  | err : ErrorEnvelope → ProcessResult

/-- The post-detector logic of `process_image` (`main.py` lines 213-407)
applied to a detector response and the caller-resolved offsets: sort,
group, build duplicate entries, normalize everything, compute the
`coordinate_transform` ratios, and assemble the envelope; any
`ZeroDivisionError` on the way is caught and becomes `errorEnvelope`. -/
def process_image (r : DetectorResponse) (offX offY : ℤ) : ProcessResult :=
  match collectDups r (offX, offY) (dupKeys r),
        stdList (sortedPreds r) (imageSize r) (offX, offY) with
  | some dupChars, some allPreds =>
    if ctW r = 0 then ProcessResult.err errorEnvelope
    else if ctH r = 0 then ProcessResult.err errorEnvelope
    else ProcessResult.ok
      { all_predictions := allPreds
        x_ratio := round4 ((CAPTCHA_IMAGE_WIDTH : ℚ) / ctW r)
        y_ratio := round4 ((CAPTCHA_IMAGE_HEIGHT : ℚ) / ctH r)
        offset_x := offX
        offset_y := offY
        duplicate_characters := dupChars
        duplicate_count := dupChars.length
        duplicates := (dupChars.map fun e => e.2.details).flatten
        image_width := ratTrunc (imgW r)
        image_height := ratTrunc (imgH r)
        inference_id := r.inference_id.getD ""
        time := r.time.getD 0
        total_detected := (preds r).length
        unique_characters := (classKeys r).length }
  | _, _ => ProcessResult.err errorEnvelope

/-- The pure value of a successful `duplicate_characters` entry. -/
def entryPure (r : DetectorResponse) (off : ℤ × ℤ) (c : String) :
    String × DuplicateEntry :=
  (c, ⟨(classGroup r c).length,
      (sortByConfDesc (classGroup r c)).map
        (standardizePure · (imageSize r) off)⟩)

/-! ### Concrete sample data used by the witnesses -/

/-- Sample raw detection: class "A", confidence 0.95, at (150, 75). -/
def p1 : RawDetection :=
  ⟨some 150, some 75, some 10, some 12, some (19/20), some "A", some 1, some "d1"⟩

/-- Sample raw detection: class "A", confidence 0.9, at (150, 75). -/
def p2 : RawDetection :=
  ⟨some 150, some 75, some 10, some 12, some (9/10), some "A", some 2, some "d2"⟩

/-- Sample detector response: image 300×150, two class-"A" detections. -/
def rW : DetectorResponse :=
  ⟨some ⟨some 300, some 150⟩, some [p1, p2], none, none⟩

/-- Normalized form of `p1` at image size (300, 150), offset (50, 100). -/
def n1 : NormalizedDetection :=
  ⟨194, 190, "A", 1, 19/20, "d1", 12, 10, 150, 75⟩

/-- Normalized form of `p2` at image size (300, 150), offset (50, 100). -/
def n2 : NormalizedDetection :=
  ⟨194, 190, "A", 2, 9/10, "d2", 12, 10, 150, 75⟩

/-- Expected successful envelope for `rW` at offset (50, 100). -/
def envW : SuccessEnvelope :=
  ⟨[n1, n2], 24/25, 11933/10000, 50, 100, [("A", ⟨2, [n1, n2]⟩)], 1,
   [n1, n2], 300, 150, "", 0, 2, 1⟩

/-- Sample response with no `image` key at all. -/
def rErrW : DetectorResponse := ⟨none, none, none, none⟩

/-- Sample response with an `image` object missing both dimension keys. -/
def rKeysW : DetectorResponse := ⟨some ⟨none, none⟩, none, none, none⟩

/-! ## Supporting lemmas -/

theorem confLe_trans (a b c : RawDetection) :
    confLe a b → confLe b c → confLe a c := by
  simp only [confLe, decide_eq_true_eq]
  exact fun h1 h2 => le_trans h2 h1

theorem confLe_total (a b : RawDetection) : confLe a b || confLe b a := by
  simp only [confLe, Bool.or_eq_true, decide_eq_true_eq]
  exact le_total (conf b) (conf a)

/-- The stable sort is a permutation of its input. -/
theorem sortByConfDesc_perm (l : List RawDetection) :
    List.Perm (sortByConfDesc l) l :=
  List.mergeSort_perm l confLe

/-- The stable sort produces pairwise non-increasing confidence. -/
theorem sortByConfDesc_sorted (l : List RawDetection) :
    (sortByConfDesc l).Pairwise fun a b => conf b ≤ conf a := by
  have h := List.sorted_mergeSort confLe_trans confLe_total l
  exact h.imp (by simp only [confLe, decide_eq_true_eq]; exact id)

/-- Stability of the sort, filter form: the detections carrying any fixed
confidence value keep their relative input order. -/
theorem sortByConfDesc_stable (l : List RawDetection) (q : ℚ) :
    (sortByConfDesc l).filter (fun p => decide (conf p = q)) =
      l.filter (fun p => decide (conf p = q)) := by
  set pq : RawDetection → Bool := fun p => decide (conf p = q) with hpq
  have hmemq : ∀ a ∈ l.filter pq, conf a = q := by
    intro a ha
    have := List.of_mem_filter ha
    simpa [hpq] using this
  have hpw : (l.filter pq).Pairwise fun a b => confLe a b := by
    refine List.pairwise_of_forall_mem_list ?_
    intro a ha b hb
    simp only [confLe, decide_eq_true_eq, hmemq a ha, hmemq b hb, le_refl]
  have hsub : List.Sublist (l.filter pq) (sortByConfDesc l) :=
    List.sublist_mergeSort confLe_trans confLe_total hpw (List.filter_sublist l)
  have hsub2 : List.Sublist ((l.filter pq).filter pq)
      ((sortByConfDesc l).filter pq) :=
    hsub.filter pq
  have hself : (l.filter pq).filter pq = l.filter pq := by
    refine List.filter_eq_self.mpr ?_
    intro a ha
    exact (List.mem_filter.mp ha).2
  rw [hself] at hsub2
  have hlen : ((sortByConfDesc l).filter pq).length = (l.filter pq).length :=
    ((sortByConfDesc_perm l).filter pq).length_eq
  exact (hsub2.eq_of_length hlen.symm).symm

/-- Membership in the first-occurrence key list. -/
theorem mem_keysInOrder {c : String} : ∀ {l : List String},
    c ∈ keysInOrder l ↔ c ∈ l := by
  have main : ∀ (n : ℕ) (l : List String), l.length ≤ n →
      (c ∈ keysInOrder l ↔ c ∈ l) := by
    intro n
    induction n with
    | zero =>
      intro l hl
      have : l = [] := List.eq_nil_of_length_eq_zero (Nat.le_zero.mp hl)
      subst this
      simp [keysInOrder]
    | succ n ih =>
      intro l hl
      match l with
      | [] => simp [keysInOrder]
      | d :: rest =>
        rw [keysInOrder]
        have hlen : (rest.filter fun e => decide (e ≠ d)).length ≤ n :=
          le_trans (List.length_filter_le _ rest)
            (Nat.le_of_succ_le_succ hl)
        simp only [List.mem_cons, ih _ hlen, List.mem_filter,
          decide_eq_true_eq]
        constructor
        · rintro (rfl | ⟨h, -⟩)
          · exact Or.inl rfl
          · exact Or.inr h
        · rintro (rfl | h)
          · exact Or.inl rfl
          · by_cases hcd : c = d
            · exact Or.inl hcd
            · exact Or.inr ⟨h, hcd⟩
  intro l
  exact main l.length l le_rfl

/-- `standardize` succeeds exactly when both image dimensions are
nonzero, and then computes `standardizePure`. -/
theorem standardize_eq (p : RawDetection) (sz off : ℤ × ℤ) :
    standardize p sz off =
      if sz.1 = 0 ∨ sz.2 = 0 then none
      else some (standardizePure p sz off) := by
  rw [standardize, convert_coordinates]
  split
  · rfl
  · rfl

/-- On success, `stdList` is the pure elementwise normalization. -/
theorem stdList_eq_some {sz off : ℤ × ℤ} : ∀ {l : List RawDetection}
    {ns : List NormalizedDetection}, stdList l sz off = some ns →
    ns = l.map (standardizePure · sz off) ∧
      (l = [] ∨ (sz.1 ≠ 0 ∧ sz.2 ≠ 0)) := by
  intro l
  induction l with
  | nil =>
    intro ns h
    simp only [stdList, Option.some.injEq] at h
    simp [← h]
  | cons p rest ih =>
    intro ns h
    rw [stdList, standardize_eq] at h
    by_cases hz : sz.1 = 0 ∨ sz.2 = 0
    · rw [if_pos hz] at h
      exact absurd h (by simp)
    · rw [if_neg hz] at h
      push_neg at hz
      rcases hrest : stdList rest sz off with _ | ns'
      · rw [hrest] at h
        exact absurd h (by simp)
      · rw [hrest] at h
        simp only [Option.some.injEq] at h
        obtain ⟨hns', -⟩ := ih hrest
        subst hns'
        exact ⟨by simp [← h], Or.inr hz⟩

/-- `stdList` fails on a nonempty list when a dimension is zero. -/
theorem stdList_eq_none {sz off : ℤ × ℤ} (hz : sz.1 = 0 ∨ sz.2 = 0)
    {l : List RawDetection} (hl : l ≠ []) : stdList l sz off = none := by
  match l with
  | [] => exact absurd rfl hl
  | p :: rest =>
    rw [stdList, standardize_eq, if_pos hz]

/-- `stdList` succeeds when both dimensions are nonzero. -/
theorem stdList_eq_some_of_ne {sz off : ℤ × ℤ} (h1 : sz.1 ≠ 0)
    (h2 : sz.2 ≠ 0) (l : List RawDetection) :
    stdList l sz off = some (l.map (standardizePure · sz off)) := by
  induction l with
  | nil => rfl
  | cons p rest ih =>
    rw [stdList, standardize_eq, if_neg (by tauto), ih]
    rfl

/-- On success, the duplicate loop produces the pure entries in order. -/
theorem collectDups_eq_some {r : DetectorResponse} {off : ℤ × ℤ} :
    ∀ {cs : List String} {es : List (String × DuplicateEntry)},
    collectDups r off cs = some es → es = cs.map (entryPure r off) := by
  intro cs
  induction cs with
  | nil =>
    intro es h
    simp only [collectDups, Option.some.injEq] at h
    simp [← h]
  | cons c rest ih =>
    intro es h
    rw [collectDups] at h
    rcases he : dupEntryFor r off c with _ | e
    · rw [he] at h
      exact absurd h (by simp)
    · rcases hrest : collectDups r off rest with _ | es'
      · rw [he, hrest] at h
        exact absurd h (by simp)
      · rw [he, hrest] at h
        simp only [Option.some.injEq] at h
        rw [dupEntryFor] at he
        rcases hstd : stdList (sortByConfDesc (classGroup r c))
            (imageSize r) off with _ | det
        · rw [hstd] at he
          exact absurd he (by simp)
        · rw [hstd] at he
          simp only [Option.map_some', Option.some.injEq] at he
          obtain ⟨hdet, -⟩ := stdList_eq_some hstd
          subst hdet
          rw [← h, ih hrest, ← he]
          simp [entryPure]

/-- Inversion of a successful `process_image` run: every dynamic field
of the envelope in terms of the pure pipeline. -/
theorem process_ok_inv {r : DetectorResponse} {offX offY : ℤ}
    {env : SuccessEnvelope}
    (h : process_image r offX offY = ProcessResult.ok env) :
    env.duplicate_characters = (dupKeys r).map (entryPure r (offX, offY)) ∧
    env.all_predictions =
      (sortedPreds r).map (standardizePure · (imageSize r) (offX, offY)) ∧
    env.duplicates =
      (env.duplicate_characters.map fun e => e.2.details).flatten ∧
    env.duplicate_count = env.duplicate_characters.length ∧
    env.total_detected = (preds r).length ∧
    env.x_ratio = round4 ((CAPTCHA_IMAGE_WIDTH : ℚ) / ctW r) ∧
    env.y_ratio = round4 ((CAPTCHA_IMAGE_HEIGHT : ℚ) / ctH r) ∧
    env.unique_characters = (classKeys r).length := by
  rw [process_image] at h
  split at h
  · rename_i dupChars allPreds hcd hstd
    split at h
    · exact ProcessResult.noConfusion h
    · split at h
      · exact ProcessResult.noConfusion h
      · cases h
        obtain ⟨hall, -⟩ := stdList_eq_some hstd
        have hdup := collectDups_eq_some hcd
        subst hall
        subst hdup
        exact ⟨rfl, rfl, rfl, rfl, rfl, rfl, rfl, rfl⟩
  · exact ProcessResult.noConfusion h

/-- `ratTrunc` really is truncation toward zero: floor for nonnegative
arguments, ceiling for negative ones. -/
theorem ratTrunc_toward_zero (q : ℚ) :
    ratTrunc q = if 0 ≤ q then ⌊q⌋ else ⌈q⌉ := by
  by_cases hq : 0 ≤ q
  · rw [ratTrunc, if_pos hq, Rat.floor_def]
    exact Int.tdiv_eq_ediv (Rat.num_nonneg.mpr hq) (by positivity)
  · rw [ratTrunc, if_neg hq]
    have hq' : 0 ≤ -q := neg_nonneg.mpr (le_of_not_le hq)
    have h1 : (-q).num.tdiv (((-q).den : ℤ)) = ⌊-q⌋ := by
      rw [Rat.floor_def]
      exact Int.tdiv_eq_ediv (Rat.num_nonneg.mpr hq') (by positivity)
    rw [Rat.neg_num, Rat.neg_den, Int.neg_tdiv] at h1
    rw [Int.floor_neg] at h1
    omega

/-! ## Claim theorems -/

/-- C1: for every point `(x, y)`, image size `(w, h)` with `w > 0` and
`h > 0`, and offset `(ox, oy)`, `convert_coordinates` returns exactly
`(min (max 0 (ox + round(x*288/w))) 502, min (max 0 (oy + round(y*179/h))) 606)`
with round-half-to-even rounding. -/
theorem convert_coordinates_closed_form (x y w h ox oy : ℤ)
    (hw : 0 < w) (hh : 0 < h) :
    convert_coordinates (x, y) (w, h) (ox, oy) =
      some (min (max 0 (ox + roundHalfEven ((x : ℚ) * 288 / (w : ℚ)))) 502,
            min (max 0 (oy + roundHalfEven ((y : ℚ) * 179 / (h : ℚ)))) 606) := by
  have hcond : ¬(((w, h) : ℤ × ℤ).1 = 0 ∨ ((w, h) : ℤ × ℤ).2 = 0) := by
    push_neg
    exact ⟨ne_of_gt hw, ne_of_gt hh⟩
  rw [convert_coordinates, if_neg hcond, convertOk]
  simp only [CAPTCHA_IMAGE_WIDTH, CAPTCHA_IMAGE_HEIGHT, FULL_BROWSER_WIDTH,
    FULL_BROWSER_HEIGHT, mul_div_assoc]
  norm_num

/-- Witness for C1 at the Scenario-A style input. -/
theorem convert_coordinates_closed_form_witness :
    convert_coordinates (150, 75) (300, 150) (50, 100) =
      some (min (max 0 (50 + roundHalfEven ((150 : ℚ) * 288 / 300))) 502,
            min (max 0 (100 + roundHalfEven ((75 : ℚ) * 179 / 150))) 606) :=
  convert_coordinates_closed_form 150 75 300 150 50 100
    (by norm_num) (by norm_num)

/-- C8: every coordinate produced by `convert_coordinates` is clamped to
`[0, FULL_BROWSER_WIDTH] × [0, FULL_BROWSER_HEIGHT]`. -/
theorem convert_coordinates_clamped (p sz off bc : ℤ × ℤ)
    (h : convert_coordinates p sz off = some bc) :
    0 ≤ bc.1 ∧ bc.1 ≤ FULL_BROWSER_WIDTH ∧
    0 ≤ bc.2 ∧ bc.2 ≤ FULL_BROWSER_HEIGHT := by
  rw [convert_coordinates] at h
  split at h
  · exact Option.noConfusion h
  · simp only [Option.some.injEq] at h
    subst h
    refine ⟨?_, ?_, ?_, ?_⟩ <;>
      (simp only [convertOk, FULL_BROWSER_WIDTH, FULL_BROWSER_HEIGHT]; omega)

/-- C3: the ranked sequence has pairwise non-increasing confidence, and
detections with any fixed confidence value keep their relative input
order (stability); being a function of the input, the ordering is
deterministic. -/
theorem ranked_sorted_and_stable (l : List RawDetection) :
    ((sortByConfDesc l).Pairwise fun a b => conf b ≤ conf a) ∧
    ∀ q : ℚ, (sortByConfDesc l).filter (fun p => decide (conf p = q)) =
      l.filter (fun p => decide (conf p = q)) :=
  ⟨sortByConfDesc_sorted l, fun q => sortByConfDesc_stable l q⟩

/-- C6: a normalized record substitutes the typed defaults, truncates the
geometry floats toward zero, and obtains its browser coordinate by
applying the Coordinate Mapper to the truncated `(x, y)`. -/
theorem normalize_fields (p : RawDetection) (sz off : ℤ × ℤ)
    (n : NormalizedDetection) (h : standardize p sz off = some n) :
    n.x = (if 0 ≤ p.x.getD 0 then ⌊p.x.getD 0⌋ else ⌈p.x.getD 0⌉) ∧
    n.y = (if 0 ≤ p.y.getD 0 then ⌊p.y.getD 0⌋ else ⌈p.y.getD 0⌉) ∧
    n.width = (if 0 ≤ p.width.getD 0 then ⌊p.width.getD 0⌋ else ⌈p.width.getD 0⌉) ∧
    n.height = (if 0 ≤ p.height.getD 0 then ⌊p.height.getD 0⌋ else ⌈p.height.getD 0⌉) ∧
    n.cls = p.cls.getD "unknown" ∧
    n.class_id = p.class_id.getD 0 ∧
    n.confidence = p.confidence.getD 0 ∧
    n.detection_id = p.detection_id.getD "" ∧
    convert_coordinates (n.x, n.y) sz off = some (n.browser_x, n.browser_y) := by
  rw [standardize_eq] at h
  split at h
  · exact Option.noConfusion h
  · rename_i hz
    simp only [Option.some.injEq] at h
    subst h
    refine ⟨ratTrunc_toward_zero _, ratTrunc_toward_zero _,
      ratTrunc_toward_zero _, ratTrunc_toward_zero _,
      rfl, rfl, rfl, rfl, ?_⟩
    rw [convert_coordinates, if_neg hz]
    rfl

/-- Group sizes may equivalently be measured on the unsorted input. -/
theorem classGroup_length (r : DetectorResponse) (c : String) :
    (classGroup r c).length =
      ((preds r).filter fun p => decide (clsEff p = c)).length :=
  ((sortByConfDesc_perm (preds r)).filter _).length_eq

/-- A class is a duplicate key iff its group has more than one member. -/
theorem mem_dupKeys {r : DetectorResponse} {c : String} :
    c ∈ dupKeys r ↔ 1 < (classGroup r c).length := by
  rw [dupKeys, List.mem_filter]
  simp only [decide_eq_true_eq]
  constructor
  · rintro ⟨-, h⟩
    exact h
  · intro h
    refine ⟨?_, h⟩
    rw [classKeys, mem_keysInOrder]
    have hlen : 0 < (classGroup r c).length := lt_trans one_pos h
    rcases List.exists_mem_of_length_pos hlen with ⟨p, hp⟩
    rw [classGroup] at hp
    refine List.mem_map.mpr ⟨p, List.mem_of_mem_filter hp, ?_⟩
    simpa using (List.mem_filter.mp hp).2

/-- C2: a class appears in the duplicate groupings iff more than one
detection of the input carries its label; each entry records its group
size and lists its details in confidence-descending order; and
`duplicate_count` is the number of duplicate groupings. -/
theorem duplicates_criterion (r : DetectorResponse) (offX offY : ℤ)
    (env : SuccessEnvelope)
    (h : process_image r offX offY = ProcessResult.ok env) :
    (∀ c : String, (∃ e, (c, e) ∈ env.duplicate_characters) ↔
      1 < ((preds r).filter fun p => decide (clsEff p = c)).length) ∧
    (∀ c e, (c, e) ∈ env.duplicate_characters →
      e.count = ((preds r).filter fun p => decide (clsEff p = c)).length ∧
      e.details.Pairwise fun a b => b.confidence ≤ a.confidence) ∧
    env.duplicate_count = env.duplicate_characters.length := by
  obtain ⟨hdc, -, -, hcount, -⟩ := process_ok_inv h
  refine ⟨?_, ?_, hcount⟩
  · intro c
    rw [hdc]
    constructor
    · rintro ⟨e, he⟩
      obtain ⟨c', hc', heq⟩ := List.mem_map.mp he
      have hcc : c' = c := congrArg Prod.fst heq
      subst hcc
      rw [← classGroup_length]
      exact mem_dupKeys.mp hc'
    · intro hlt
      refine ⟨(entryPure r (offX, offY) c).2, List.mem_map.mpr ⟨c, ?_, rfl⟩⟩
      exact mem_dupKeys.mpr (by rw [classGroup_length]; exact hlt)
  · intro c e he
    rw [hdc] at he
    obtain ⟨c', hc', heq⟩ := List.mem_map.mp he
    have hcc : c' = c := congrArg Prod.fst heq
    subst hcc
    have hee : (entryPure r (offX, offY) c').2 = e := congrArg Prod.snd heq
    subst hee
    constructor
    · exact classGroup_length r c'
    · have hs := sortByConfDesc_sorted (classGroup r c')
      exact hs.map _ (fun a b hab => hab)

/-- C7: whenever processing completes, the normalized output covers the
input exactly: equal lengths, matching `total_detected`, and the output
is a permutation of the elementwise normalization of the input. -/
theorem coverage (r : DetectorResponse) (offX offY : ℤ)
    (env : SuccessEnvelope)
    (h : process_image r offX offY = ProcessResult.ok env) :
    env.all_predictions.length = (preds r).length ∧
    env.total_detected = (preds r).length ∧
    List.Perm env.all_predictions
      ((preds r).map (standardizePure · (imageSize r) (offX, offY))) := by
  obtain ⟨-, hall, -, -, htot, -⟩ := process_ok_inv h
  refine ⟨?_, htot, ?_⟩
  · rw [hall, List.length_map, sortedPreds, (sortByConfDesc_perm _).length_eq]
  · rw [hall]
    exact (sortByConfDesc_perm (preds r)).map _

/-- C9: every record of the flat duplicates list also occurs in
`all_predictions`, and the length of the flat list is the sum of the
`count` fields of the duplicate groupings. -/
theorem duplicates_within_predictions (r : DetectorResponse)
    (offX offY : ℤ) (env : SuccessEnvelope)
    (h : process_image r offX offY = ProcessResult.ok env) :
    (∀ n ∈ env.duplicates, n ∈ env.all_predictions) ∧
    env.duplicates.length =
      (env.duplicate_characters.map fun e => e.2.count).sum := by
  obtain ⟨hdc, hall, hdup, -⟩ := process_ok_inv h
  constructor
  · intro n hn
    rw [hdup] at hn
    obtain ⟨ds, hds, hnds⟩ := List.mem_flatten.mp hn
    obtain ⟨⟨c, e⟩, hce, hds'⟩ := List.mem_map.mp hds
    rw [hdc] at hce
    obtain ⟨c', hc', heq⟩ := List.mem_map.mp hce
    rw [← hds'] at hnds
    rw [← heq] at hnds
    have hnds' : n ∈ (sortByConfDesc (classGroup r c')).map
        (standardizePure · (imageSize r) (offX, offY)) := hnds
    obtain ⟨p, hp, hnp⟩ := List.mem_map.mp hnds'
    have hp2 : p ∈ classGroup r c' := by
      rw [sortByConfDesc] at hp
      exact List.mem_mergeSort.mp hp
    have hp3 : p ∈ sortedPreds r := List.mem_of_mem_filter hp2
    rw [hall]
    exact List.mem_map.mpr ⟨p, hp3, hnp⟩
  · rw [hdup, hdc, List.length_flatten]
    simp only [List.map_map]
    congr 1
    refine List.map_congr_left ?_
    intro c hc
    simp [entryPure, sortByConfDesc, Function.comp]

/-- C4: whenever the reported image width or height is zero — including
the `{width:0, height:0}` substituted for a missing `image` key — the
unguarded ratio divisions fail, the failure is caught, and
`process_image` returns the structured error envelope with its empty
placeholder lists instead of propagating the exception. -/
theorem zero_dimension_error (r : DetectorResponse) (offX offY : ℤ)
    (h : r.image = none ∨
      ∃ m, r.image = some m ∧ (m.width = some 0 ∨ m.height = some 0)) :
    ∃ ee, process_image r offX offY = ProcessResult.err ee ∧
      ee.error = "division by zero" ∧
      ee.details = "Lỗi trong quá trình xử lý ảnh" ∧
      ee.duplicate_characters = [] ∧ ee.duplicates = [] ∧
      ee.all_predictions = [] := by
  have hct : ctW r = 0 ∨ ctH r = 0 := by
    rcases h with hnone | ⟨m, hm, hw | hh⟩
    · left
      rw [ctW, hnone]
    · left
      simp [ctW, hm, hw]
    · right
      simp [ctH, hm, hh]
  refine ⟨errorEnvelope, ?_, rfl, rfl, rfl, rfl, rfl⟩
  rcases hcd : collectDups r (offX, offY) (dupKeys r) with _ | dc
  · simp [process_image, hcd]
  · rcases hstd : stdList (sortedPreds r) (imageSize r) (offX, offY)
        with _ | ap
    · simp [process_image, hcd, hstd]
    · rcases hct with hW | hH
      · simp [process_image, hcd, hstd, hW]
      · by_cases hW : ctW r = 0
        · simp [process_image, hcd, hstd, hW]
        · simp [process_image, hcd, hstd, hW, hH]

/-- C10: if the `image` object is present but lacks the dimension keys,
the missing-image substitution does not apply: the `coordinate_transform`
divisors fall back to 1 so a run with no predictions reports
`x_ratio = 288.0` and `y_ratio = 179.0`, while any non-empty prediction
list makes the per-detection mapping divide by the size 0 and the run
end in the error envelope. -/
theorem image_keys_missing (r : DetectorResponse) (offX offY : ℤ)
    (m : ImageMeta) (him : r.image = some m) (hw : m.width = none)
    (hh : m.height = none) :
    (preds r = [] → ∃ env,
      process_image r offX offY = ProcessResult.ok env ∧
      env.x_ratio = 288 ∧ env.y_ratio = 179) ∧
    (preds r ≠ [] →
      process_image r offX offY = ProcessResult.err errorEnvelope) := by
  have hctW : ctW r = 1 := by
    simp [ctW, him, hw]
  have hctH : ctH r = 1 := by
    simp [ctH, him, hh]
  have himgW : imgW r = 0 := by
    simp [imgW, him, hw]
  have himgH : imgH r = 0 := by
    simp [imgH, him, hh]
  constructor
  · intro hp
    have hS : sortedPreds r = [] := by
      rw [sortedPreds, hp]
      simp [sortByConfDesc]
    have hkeys : classKeys r = [] := by
      rw [classKeys, hS]
      simp [keysInOrder]
    have hdk : dupKeys r = [] := by
      rw [dupKeys, hkeys]
      rfl
    refine ⟨{ all_predictions := []
              x_ratio := round4 ((CAPTCHA_IMAGE_WIDTH : ℚ) / ctW r)
              y_ratio := round4 ((CAPTCHA_IMAGE_HEIGHT : ℚ) / ctH r)
              offset_x := offX
              offset_y := offY
              duplicate_characters := []
              duplicate_count := 0
              duplicates := []
              image_width := ratTrunc (imgW r)
              image_height := ratTrunc (imgH r)
              inference_id := r.inference_id.getD ""
              time := r.time.getD 0
              total_detected := (preds r).length
              unique_characters := (classKeys r).length }, ?_, ?_, ?_⟩
    · rw [process_image, hdk, hS]
      simp [collectDups, stdList, hctW, hctH]
    · show round4 ((CAPTCHA_IMAGE_WIDTH : ℚ) / ctW r) = 288
      rw [hctW]
      norm_num [CAPTCHA_IMAGE_WIDTH, round4, roundHalfEven]
    · show round4 ((CAPTCHA_IMAGE_HEIGHT : ℚ) / ctH r) = 179
      rw [hctH]
      norm_num [CAPTCHA_IMAGE_HEIGHT, round4, roundHalfEven]
  · intro hp
    have hS : sortedPreds r ≠ [] := by
      rw [sortedPreds]
      intro hcon
      have hl := congrArg List.length hcon
      simp only [sortByConfDesc, List.length_mergeSort, List.length_nil] at hl
      exact hp (List.eq_nil_of_length_eq_zero hl)
    have hz : (imageSize r).1 = 0 ∨ (imageSize r).2 = 0 := by
      left
      show ratTrunc (imgW r) = 0
      rw [himgW]
      rfl
    have hstd : stdList (sortedPreds r) (imageSize r) (offX, offY) = none :=
      stdList_eq_none hz hS
    rcases hcd : collectDups r (offX, offY) (dupKeys r) with _ | dc
    · simp [process_image, hcd]
    · simp [process_image, hcd, hstd]

/-! ## Concrete evaluations -/

/-- Concrete run of the Coordinate Mapper on Scenario A of the spec. -/
theorem convEval :
    convert_coordinates (150, 75) (300, 150) (50, 100) = some (194, 190) := by
  norm_num [convert_coordinates, convertOk, roundHalfEven, CAPTCHA_IMAGE_WIDTH,
    CAPTCHA_IMAGE_HEIGHT, FULL_BROWSER_WIDTH, FULL_BROWSER_HEIGHT]

/-- C5 counterexample: at image size (300, 150), offset (50, 100) and
point (150, 75) the Coordinate Mapper does not return the browser
coordinate (194, 189) claimed by the spec. -/
theorem scenario_a_counterexample :
    convert_coordinates (150, 75) (300, 150) (50, 100) ≠ some (194, 189) := by
  rw [convEval]
  simp

/-- C5 amended: at that input the ratios are 0.96 and (rounded to 4
places) 1.1933, but the scaled point is (144, 90) — round-half-to-even
sends 75·(179/150) = 89.5 to 90 — and the browser coordinate is
(194, 190). -/
theorem scenario_a_amended :
    (CAPTCHA_IMAGE_WIDTH : ℚ) / 300 = 0.96 ∧
    round4 ((CAPTCHA_IMAGE_HEIGHT : ℚ) / 150) = 1.1933 ∧
    roundHalfEven ((150 : ℚ) * ((CAPTCHA_IMAGE_WIDTH : ℚ) / 300)) = 144 ∧
    roundHalfEven ((75 : ℚ) * ((CAPTCHA_IMAGE_HEIGHT : ℚ) / 150)) = 90 ∧
    convert_coordinates (150, 75) (300, 150) (50, 100) = some (194, 190) := by
  refine ⟨?_, ?_, ?_, ?_, convEval⟩ <;>
    norm_num [CAPTCHA_IMAGE_WIDTH, CAPTCHA_IMAGE_HEIGHT, round4, roundHalfEven]

/-- Normalization of the sample detection `p1`. -/
theorem stdEval : standardize p1 (300, 150) (50, 100) = some n1 := by
  rw [standardize_eq]
  norm_num [standardizePure, p1, n1, convertOk, roundHalfEven,
    ratTrunc_toward_zero, CAPTCHA_IMAGE_WIDTH, CAPTCHA_IMAGE_HEIGHT,
    FULL_BROWSER_WIDTH, FULL_BROWSER_HEIGHT]

/-- Normalization of the sample detection `p2`. -/
theorem stdEval2 : standardize p2 (300, 150) (50, 100) = some n2 := by
  rw [standardize_eq]
  norm_num [standardizePure, p2, n2, convertOk, roundHalfEven,
    ratTrunc_toward_zero, CAPTCHA_IMAGE_WIDTH, CAPTCHA_IMAGE_HEIGHT,
    FULL_BROWSER_WIDTH, FULL_BROWSER_HEIGHT]

/-- The sample pair is already confidence-descending, so the stable sort
fixes it. -/
theorem sortPairW : sortByConfDesc [p1, p2] = [p1, p2] := by
  apply List.mergeSort_of_sorted
  refine List.pairwise_pair.mpr ?_
  norm_num [confLe, conf, p1, p2]

/-- Sorted predictions of the sample response. -/
theorem sortWth : sortedPreds rW = [p1, p2] := by
  rw [sortedPreds]
  show sortByConfDesc [p1, p2] = [p1, p2]
  exact sortPairW

/-- Class group of "A" in the sample response. -/
theorem groupW : classGroup rW "A" = [p1, p2] := by
  rw [classGroup, sortWth]
  simp [clsEff, p1, p2]

/-- Class keys of the sample response. -/
theorem keysW : classKeys rW = ["A"] := by
  rw [classKeys, sortWth]
  simp [clsEff, p1, p2, keysInOrder]

/-- Duplicate keys of the sample response. -/
theorem dupKeysWth : dupKeys rW = ["A"] := by
  rw [dupKeys, keysW]
  simp [groupW]

/-- Image size of the sample response. -/
theorem imageSizeW : imageSize rW = (300, 150) := by
  norm_num [imageSize, imgW, imgH, rW, ratTrunc_toward_zero]

/-- Normalizing the sample list. -/
theorem stdListW : stdList [p1, p2] (300, 150) (50, 100) = some [n1, n2] := by
  simp [stdList, stdEval, stdEval2]

/-- The duplicate entry computed for class "A". -/
theorem dupEntryW :
    dupEntryFor rW (50, 100) "A" = some ("A", ⟨2, [n1, n2]⟩) := by
  rw [dupEntryFor, groupW, imageSizeW, sortPairW, stdListW]
  simp

/-- The full duplicate loop on the sample response. -/
theorem collectW :
    collectDups rW (50, 100) ["A"] = some [("A", ⟨2, [n1, n2]⟩)] := by
  simp [collectDups, dupEntryW]

/-- Full pipeline run on the sample response. -/
theorem processW_eval : process_image rW 50 100 = ProcessResult.ok envW := by
  rw [process_image, dupKeysWth, collectW, sortWth, imageSizeW, stdListW, keysW]
  norm_num [ctW, ctH, rW, envW, round4, roundHalfEven, imgW, imgH,
    ratTrunc_toward_zero, preds, keysW, CAPTCHA_IMAGE_WIDTH,
    CAPTCHA_IMAGE_HEIGHT]

/-! ## Witnesses -/

/-- Witness for C8 at the Scenario-A input. -/
theorem convert_coordinates_clamped_witness :
    0 ≤ ((194 : ℤ), (190 : ℤ)).1 ∧
    ((194 : ℤ), (190 : ℤ)).1 ≤ FULL_BROWSER_WIDTH ∧
    0 ≤ ((194 : ℤ), (190 : ℤ)).2 ∧
    ((194 : ℤ), (190 : ℤ)).2 ≤ FULL_BROWSER_HEIGHT :=
  convert_coordinates_clamped (150, 75) (300, 150) (50, 100) (194, 190)
    convEval

/-- Witness for C6 at the sample detection `p1`. -/
theorem normalize_fields_witness :
    n1.x = (if 0 ≤ p1.x.getD 0 then ⌊p1.x.getD 0⌋ else ⌈p1.x.getD 0⌉) ∧
    n1.y = (if 0 ≤ p1.y.getD 0 then ⌊p1.y.getD 0⌋ else ⌈p1.y.getD 0⌉) ∧
    n1.width =
      (if 0 ≤ p1.width.getD 0 then ⌊p1.width.getD 0⌋ else ⌈p1.width.getD 0⌉) ∧
    n1.height =
      (if 0 ≤ p1.height.getD 0 then ⌊p1.height.getD 0⌋ else ⌈p1.height.getD 0⌉) ∧
    n1.cls = p1.cls.getD "unknown" ∧
    n1.class_id = p1.class_id.getD 0 ∧
    n1.confidence = p1.confidence.getD 0 ∧
    n1.detection_id = p1.detection_id.getD "" ∧
    convert_coordinates (n1.x, n1.y) (300, 150) (50, 100) =
      some (n1.browser_x, n1.browser_y) :=
  normalize_fields p1 (300, 150) (50, 100) n1 stdEval

/-- Witness for C2 on the sample run. -/
theorem duplicates_criterion_witness :
    ((∃ e, ("A", e) ∈ envW.duplicate_characters) ↔
      1 < ((preds rW).filter fun p => decide (clsEff p = "A")).length) ∧
    envW.duplicate_count = envW.duplicate_characters.length :=
  ⟨(duplicates_criterion rW 50 100 envW processW_eval).1 "A",
   (duplicates_criterion rW 50 100 envW processW_eval).2.2⟩

/-- Witness for C7 on the sample run. -/
theorem coverage_witness :
    envW.all_predictions.length = (preds rW).length ∧
    envW.total_detected = (preds rW).length ∧
    List.Perm envW.all_predictions
      ((preds rW).map (standardizePure · (imageSize rW) (50, 100))) :=
  coverage rW 50 100 envW processW_eval

/-- Witness for C9 on the sample run. -/
theorem duplicates_within_predictions_witness :
    (∀ n ∈ envW.duplicates, n ∈ envW.all_predictions) ∧
    envW.duplicates.length =
      (envW.duplicate_characters.map fun e => e.2.count).sum :=
  duplicates_within_predictions rW 50 100 envW processW_eval

/-- Witness for C4 on a response with no `image` key. -/
theorem zero_dimension_error_witness :
    ∃ ee, process_image rErrW 0 0 = ProcessResult.err ee ∧
      ee.error = "division by zero" ∧
      ee.details = "Lỗi trong quá trình xử lý ảnh" ∧
      ee.duplicate_characters = [] ∧ ee.duplicates = [] ∧
      ee.all_predictions = [] :=
  zero_dimension_error rErrW 0 0 (Or.inl rfl)

/-- Witness for C10 on a response whose `image` object lacks both keys. -/
theorem image_keys_missing_witness :
    (preds rKeysW = [] → ∃ env,
      process_image rKeysW 0 0 = ProcessResult.ok env ∧
      env.x_ratio = 288 ∧ env.y_ratio = 179) ∧
    (preds rKeysW ≠ [] →
      process_image rKeysW 0 0 = ProcessResult.err errorEnvelope) :=
  image_keys_missing rKeysW 0 0 ⟨none, none⟩ rfl rfl rfl

end Captcha
